import Mathlib

/-!
Verification of the balanceUp CSV ingestion pipeline (`app/data_importer.py`).

The pipeline reads `;`-delimited CSV files of three kinds (dues, punishments,
transactions), normalizes header aliases, transforms fields, resolves user and
team identities through run-scoped caches, truncates each kind's destination
table and bulk-inserts the transformed rows, all inside one transaction that is
rolled back on any fatal row error.

We embed a run shallowly: a `RawRow` is the dict produced by `csv.DictReader`
(an association list keyed by header name), a `DBState` holds the five tables,
and `processRow` / `processFile` / `importFiles` transcribe the body of
`import_data`.  Fallible steps live in `Except RowError`; the top-level
`import_data` returns the initial state together with `false` when the run
errors, modelling `conn.rollback()` of the single `BEGIN TRANSACTION`.
Machine floats of the source are modelled as exact rationals.
-/

/-- A CSV row as produced by `csv.DictReader`: header name ↦ cell text. -/
abbrev RawRow := List (String × String)

/-- The three record kinds recognised by the importer. -/
inductive FileType
  | dues
  | punishments
  | transactions
deriving DecidableEq, Repr

/-- Python-dict lookup on an association list (first binding wins, as dict
keys are unique; `dictSet` keeps them unique). -/
def dictGet? {β : Type} : List (String × β) → String → Option β
  | [], _ => none
  | kv :: rest, k => if kv.1 = k then some kv.2 else dictGet? rest k

/-- Python-dict update: overwrite the existing binding for `k`, else append. -/
def dictSet {β : Type} (l : List (String × β)) (k : String) (v : β) :
    List (String × β) :=
  match l with
  | [] => [(k, v)]
  | kv :: rest =>
    if kv.1 = k then (k, v) :: rest else kv :: dictSet rest k v

/-- `row.get(k)` -/
def rget (row : RawRow) (k : String) : Option String := dictGet? row k

/-- `row.get(k, d)` -/
def rgetD (row : RawRow) (k : String) (d : String) : String := (rget row k).getD d

/-! ### Field parsers

`datetime.strptime` with `%d-%m-%Y` / `%Y-%m-%d` accepts 1-2 digit day and
month fields and a 1-4 digit year and validates the calendar date; `strftime`
re-emits the date zero-padded.  `int(...)` strips whitespace and accepts an
optional sign; `float(...)` additionally accepts a decimal point and an
exponent (we model the numeric value exactly in `ℚ`). -/

/-- Python `str.split(sep)` on char lists (every non-overlapping occurrence,
left to right); `fuel` bounds the recursion and is seeded above the input
length, so it is never exhausted. -/
def splitAux (sep : List Char) : Nat → List Char → List Char → List (List Char)
  | 0, acc, l => [acc.reverse ++ l]
  | _ + 1, acc, [] => [acc.reverse]
  | fuel + 1, acc, c :: rest =>
    if sep.isPrefixOf (c :: rest) then
      acc.reverse :: splitAux sep fuel [] ((c :: rest).drop sep.length)
    else
      splitAux sep fuel (c :: acc) rest

/-- Python `s.split(sep)` (`sep` non-empty). -/
def splitStr (s sep : String) : List String :=
  (splitAux sep.data (s.data.length + 1) [] s.data).map (fun l => String.mk l)

/-- ASCII whitespace stripped by Python `str.strip()`. -/
def isSpaceChar (c : Char) : Bool :=
  c = ' ' ∨ c = '\t' ∨ c = '\n' ∨ c = '\r'

/-- Python `str.strip()`. -/
def pyStrip (s : String) : String :=
  String.mk (((s.data.dropWhile isSpaceChar).reverse.dropWhile isSpaceChar).reverse)

/-- Python `str.upper()` (ASCII). -/
def upperStr (s : String) : String := String.mk (s.data.map Char.toUpper)

def isDigits (s : String) : Bool :=
  !s.data.isEmpty && s.data.all (fun c => c.isDigit)

/-- Numeric value of a digit run. -/
def digitsVal (l : List Char) : Nat :=
  l.foldl (fun a c => a * 10 + (c.toNat - 48)) 0

def isLeapYear (y : Nat) : Bool := (y % 4 == 0 && y % 100 != 0) || y % 400 == 0

def daysInMonth (y m : Nat) : Nat :=
  if m = 2 then (if isLeapYear y then 29 else 28)
  else if m = 4 ∨ m = 6 ∨ m = 9 ∨ m = 11 then 30
  else 31

def pad2 (n : Nat) : String := if n < 10 then "0" ++ toString n else toString n

def pad4 (n : Nat) : String :=
  if n < 10 then "000" ++ toString n
  else if n < 100 then "00" ++ toString n
  else if n < 1000 then "0" ++ toString n
  else toString n

def validDate (y m d : Nat) : Bool :=
  1 ≤ y && y ≤ 9999 && 1 ≤ m && m ≤ 12 && 1 ≤ d && d ≤ daysInMonth y m

/-- ISO rendering `%Y-%m-%d` used by every `strftime` call in the importer. -/
def isoDate (y m d : Nat) : String := pad4 y ++ "-" ++ pad2 m ++ "-" ++ pad2 d

/-- `datetime.strptime(s, '%d-%m-%Y').strftime('%Y-%m-%d')`, `none` on
`ValueError`. -/
def parseDateDMY (s : String) : Option String :=
  match splitStr s "-" with
  | [d, m, y] =>
    if isDigits d && d.data.length ≤ 2 && isDigits m && m.data.length ≤ 2 &&
        isDigits y && y.data.length ≤ 4 then
      let dn := digitsVal d.data
      let mn := digitsVal m.data
      let yn := digitsVal y.data
      if validDate yn mn dn then some (isoDate yn mn dn) else none
    else none
  | _ => none

/-- `datetime.strptime(s, '%Y-%m-%d').strftime('%Y-%m-%d')`, `none` on
`ValueError`. -/
def parseDateYMD (s : String) : Option String :=
  match splitStr s "-" with
  | [y, m, d] =>
    if isDigits y && y.data.length ≤ 4 && isDigits m && m.data.length ≤ 2 &&
        isDigits d && d.data.length ≤ 2 then
      let yn := digitsVal y.data
      let mn := digitsVal m.data
      let dn := digitsVal d.data
      if validDate yn mn dn then some (isoDate yn mn dn) else none
    else none
  | _ => none

/-- Python `int(s)`: strip, optional sign, non-empty digit run. -/
def parseIntPy (s : String) : Option Int :=
  match (pyStrip s).data with
  | '-' :: rest =>
    if !rest.isEmpty && rest.all (fun c => c.isDigit) then
      some (-(digitsVal rest : Int))
    else none
  | '+' :: rest =>
    if !rest.isEmpty && rest.all (fun c => c.isDigit) then
      some ((digitsVal rest : Int))
    else none
  | l =>
    if !l.isEmpty && l.all (fun c => c.isDigit) then
      some ((digitsVal l : Int))
    else none

/-- Exponent suffix of a float literal: optional sign then digits. -/
def parseExpPart (l : List Char) : Option Int :=
  match l with
  | '-' :: rest =>
    if !rest.isEmpty && rest.all (fun c => c.isDigit) then
      some (-(digitsVal rest : Int))
    else none
  | '+' :: rest =>
    if !rest.isEmpty && rest.all (fun c => c.isDigit) then
      some ((digitsVal rest : Int))
    else none
  | _ =>
    if !l.isEmpty && l.all (fun c => c.isDigit) then
      some ((digitsVal l : Int))
    else none

/-- Unsigned float literal `digits [. digits] [(e|E) exp]` with at least one
digit in the mantissa; value taken exactly in `ℚ`. -/
def parseUnsignedQ (l : List Char) : Option ℚ :=
  let ip := l.takeWhile (fun c => c.isDigit)
  let rest := l.dropWhile (fun c => c.isDigit)
  match rest with
  | [] => if ip.isEmpty then none else some ((digitsVal ip : ℚ))
  | '.' :: rest2 =>
    let fp := rest2.takeWhile (fun c => c.isDigit)
    let rest3 := rest2.dropWhile (fun c => c.isDigit)
    if ip.isEmpty && fp.isEmpty then none
    else
      let base : ℚ := (digitsVal ip : ℚ) + (digitsVal fp : ℚ) / ((10 : ℚ) ^ fp.length)
      match rest3 with
      | [] => some base
      | e :: rest4 =>
        if e = 'e' ∨ e = 'E' then
          (parseExpPart rest4).map (fun k => base * (10 : ℚ) ^ k)
        else none
  | e :: rest2 =>
    if (e = 'e' ∨ e = 'E') && !ip.isEmpty then
      (parseExpPart rest2).map (fun k => (digitsVal ip : ℚ) * (10 : ℚ) ^ k)
    else none

/-- Python `float(s)` modelled exactly in `ℚ` (sign, decimal point, exponent;
`none` on `ValueError`). -/
def parseFloatQ (s : String) : Option ℚ :=
  match (pyStrip s).data with
  | '-' :: rest => (parseUnsignedQ rest).map (fun q => -q)
  | '+' :: rest => parseUnsignedQ rest
  | l => parseUnsignedQ l

/-! ### Helper functions of `data_importer.py` -/

/-- `convert_payment_status(status, paid_date)` — `today` stands for
`datetime.now().strftime('%Y-%m-%d')`.  The `paid_date if paid_date else ...`
truthiness test is on the optional string. -/
def convert_payment_status (status : String) (paid_date : Option String)
    (today : String) : Option String :=
  if status = "STATUS_EXEMPT" then
    some (match paid_date with
          | some d => if d.data.isEmpty then today else d
          | none => today)
  else if status = "STATUS_PAID" then
    match paid_date with
    | some d => if d.data.isEmpty then none else some d
    | none => none
  else none

/-- `extract_user_from_subject(subject)`. -/
def extract_user_from_subject (subject : String) : Option String :=
  let parts := splitStr subject ": "
  if parts.length > 1 then
    let user_part := parts.getD 1 ""
    let sub := splitStr user_part " ("
    if sub.length > 1 then some (sub.getD 0 "") else none
  else none

/-- The per-kind `column_mapping` dict of `import_data`. -/
def column_mapping (ft : FileType) : List (String × String) :=
  match ft with
  | .punishments =>
    [("penalty_created", "created"), ("penatly_created", "created"),
     ("penalty_user", "user"), ("penatly_user", "user"),
     ("username", "user"),
     ("penalty_reason", "reason"), ("penatly_reason", "reason"),
     ("penalty_name", "reason"),
     ("penalty_archived", "archived"), ("penatly_archived", "archived"),
     ("penalty_paid", "paid_date"), ("penatly_paid", "paid_date"),
     ("user_payment_date", "paid_date"),
     ("penalty_amount", "amount"), ("penatly_amount", "amount"),
     ("penalty_currency", "currency"), ("penatly_currency", "currency"),
     ("penalty_subject", "subject"), ("penatly_subject", "subject")]
  | .dues =>
    [("due_created", "created"), ("due_user", "user"), ("username", "user"),
     ("due_reason", "reason"), ("due_name", "reason"),
     ("due_archived", "archived"), ("due_paid", "paid_date"),
     ("user_payment_date", "paid_date"),
     ("due_amount", "amount"), ("due_currency", "currency"),
     ("due_subject", "subject")]
  | .transactions =>
    [("transaction_created", "created"), ("transaction_user", "user"),
     ("username", "user"),
     ("transaction_reason", "reason"), ("transaction_name", "reason"),
     ("transaction_amount", "amount"), ("transaction_currency", "currency"),
     ("transaction_subject", "subject")]

/-- The `fixed_row` loop: every key is sent through the kind's alias map
(unlisted keys pass through), rebuilding the dict in row order. -/
def normalizeRow (ft : FileType) (row : RawRow) : RawRow :=
  row.foldl
    (fun acc kv => dictSet acc ((dictGet? (column_mapping ft) kv.1).getD kv.1) kv.2)
    []

/-! ### Database state and caches -/

/-- One inserted `dues` tuple (the VALUES of `due_query`, in column order). -/
structure DueTuple where
  user_id : Nat
  team_id : Int
  created : String
  reason : String
  archived : Nat
  amount : ℚ
  currency : String
  subject : String
  search_params : String
  paid_date : Option String
  user_paid : String
deriving DecidableEq, Repr

/-- One inserted `punishments` tuple (the VALUES of `punishment_query`). -/
structure PunTuple where
  user_id : Nat
  team_id : Int
  created : String
  reason : String
  archived : Nat
  amount : ℚ
  currency : String
  subject : String
  search_params : String
  paid_date : Option String
deriving DecidableEq, Repr

/-- One inserted `transactions` tuple (the VALUES of `transaction_query`). -/
structure TxTuple where
  user_id : Nat
  team_id : Int
  created : String
  reason : String
  amount : ℚ
  currency : String
  subject : String
  search_params : String
deriving DecidableEq, Repr

/-- A value produced by one row, tagged with its destination table. -/
inductive Tuple
  | due (t : DueTuple)
  | pun (t : PunTuple)
  | tx (t : TxTuple)
deriving DecidableEq, Repr

/-- The relational store: `users (user_id, user_name, team_id)` with an
AUTOINCREMENT counter, `teams (team_id, team_name)` keyed by `team_id`, and the
three kind tables in insertion order. -/
structure DBState where
  users : List (Nat × String × Int)
  nextUserId : Nat
  teams : List (Int × String)
  dues : List DueTuple
  punishments : List PunTuple
  transactions : List TxTuple
deriving DecidableEq, Repr

/-- The run-scoped caches: `users_cache` (name ↦ id, dict semantics) and the
key set of `teams_map` (its values are never read by the importer). -/
structure Caches where
  users_cache : List (String × Nat)
  teams_map : List Int
deriving DecidableEq, Repr

/-- `for user_id, user_name in fetchall(): users_cache[user_name] = user_id` —
later table rows overwrite earlier bindings of the same name. -/
def cacheOfUsers (users : List (Nat × String × Int)) : List (String × Nat) :=
  users.foldl (fun acc u => dictSet acc u.2.1 u.1) []

/-- Cache state right after the two preload queries. -/
def initCaches (s : DBState) : Caches :=
  { users_cache := cacheOfUsers s.users, teams_map := s.teams.map (fun t => t.1) }

/-- `truncate_table(cursor, file_type)`: `DELETE FROM` the kind's table. -/
def truncateTable (ft : FileType) (s : DBState) : DBState :=
  match ft with
  | .dues => { s with dues := [] }
  | .punishments => { s with punishments := [] }
  | .transactions => { s with transactions := [] }

/-- Batched `executemany` appends, flattened to per-tuple appends (same final
table contents inside the single transaction). -/
def appendTuple (s : DBState) (t : Tuple) : DBState :=
  match t with
  | .due d => { s with dues := s.dues ++ [d] }
  | .pun p => { s with punishments := s.punishments ++ [p] }
  | .tx t => { s with transactions := s.transactions ++ [t] }

/-- The content of a kind's destination table. -/
def kindTable (ft : FileType) (s : DBState) : List Tuple :=
  match ft with
  | .dues => s.dues.map Tuple.due
  | .punishments => s.punishments.map Tuple.pun
  | .transactions => s.transactions.map Tuple.tx

/-- A fatal error raised while importing one row (`except ...: raise`). -/
inductive RowError
  | missing (key : String)
  | badInt (cell : String)
  | badDate (cell : String)
deriving DecidableEq, Repr

/-- Python truthiness of an optional string (`None` and `""` falsy). -/
def truthyOpt : Option String → Bool
  | some s => !s.data.isEmpty
  | none => false

/-- All row-local data computed by the loop body before the team/user
database effects (the source computes exactly these values, in this order,
before touching `teams_map` / `users_cache`). -/
structure ParsedRow where
  team_id : Int
  team_name : String
  user_name : String
  created : String
  reason : String
  amount : ℚ
  currency : String
  subject : String
  search_params : String
  paid_date : Option String
  archived : Nat
  user_paid_cell : Option String
deriving DecidableEq, Repr

/-- Kind-specific user name, created date and reason (the only further fatal
steps of the loop body: a missing user/created column or an unparsable
created date raise).  For transactions the subject is looked up under its
pre-normalization key `transaction_subject` (which the normalizer has
renamed), the user is extracted from it, and the created date comes from the
raw `transaction_date` column. -/
def parseUCR (ft : FileType) (fixed : RawRow) :
    Except RowError (String × String × String) :=
  match ft with
  | FileType.transactions =>
    let subject0 := rgetD fixed "transaction_subject" ""
    let user_name := (extract_user_from_subject subject0).getD "SYSTEM"
    match rget fixed "transaction_date" with
    | none => Except.error (RowError.missing "transaction_date")
    | some ds =>
      match parseDateDMY ds with
      | none => Except.error (RowError.badDate ds)
      | some created =>
        Except.ok (user_name, created, rgetD fixed "transaction_reason" subject0)
  | _ =>
    match rget fixed "user" with
    | none => Except.error (RowError.missing "user")
    | some user_name =>
      match rget fixed "created" with
      | none => Except.error (RowError.missing "created")
      | some ds =>
        match parseDateDMY ds with
        | none => Except.error (RowError.badDate ds)
        | some created => Except.ok (user_name, created, rgetD fixed "reason" "")

/-- `float(fixed_row.get('amount', fixed_row.get('transaction_amount','0')))/100`,
`0.0` on `ValueError`. -/
def deriveAmount (fixed : RawRow) : ℚ :=
  match parseFloatQ (rgetD fixed "amount" (rgetD fixed "transaction_amount" "0")) with
  | some q => q / 100
  | none => 0

/-- Kind-specific paid-date: punishments read the RAW row keys
`penatly_paid` / `penalty_paid`; dues combine the `user_paid` status with
(the post-aliasing lookup of) `user_payment_date` via
`convert_payment_status`. -/
def punPaidStr (row : RawRow) : Option String :=
  if truthyOpt (rget row "penatly_paid") &&
      truthyOpt ((rget row "penatly_paid").map (fun v => pyStrip v)) then
    rget row "penatly_paid"
  else if truthyOpt (rget row "penalty_paid") &&
      truthyOpt ((rget row "penalty_paid").map (fun v => pyStrip v)) then
    rget row "penalty_paid"
  else none

def derivePaidDate (ft : FileType) (today : String) (row fixed : RawRow) :
    Option String :=
  match ft with
  | FileType.punishments =>
    match punPaidStr row with
    | some pstr => parseDateDMY pstr  -- ValueError ⇒ warning only, None
    | none => none
  | FileType.dues =>
    let status := rgetD fixed "user_paid" ""
    let payment_date := rgetD fixed "user_payment_date" ""
    let pd0 : Option String :=
      if !payment_date.data.isEmpty then parseDateYMD payment_date else none
    convert_payment_status status pd0 today
  | FileType.transactions => none

/-- `archived = 1 if archived_value and archived_value.upper() == 'YES' else 0`
(dues and punishments only). -/
def deriveArchived (ft : FileType) (fixed : RawRow) : Nat :=
  match ft with
  | FileType.transactions => 0
  | _ =>
    let av := rgetD fixed "archived" ""
    if !av.data.isEmpty && upperStr av = "YES" then 1 else 0

/-- The pure, row-only part of the loop body of `import_data`: alias
normalization, required team columns (`int(fixed_row['team_id'])`,
`fixed_row['team_name']`), kind-specific user/created/reason, amount,
currency, subject, paid-date derivation and the archived flag.  Any
exception becomes `.error` (re-raised in the source to abort the run). -/
def parseRow (ft : FileType) (today : String) (row : RawRow) :
    Except RowError ParsedRow :=
  match rget (normalizeRow ft row) "team_id" with
  | none => Except.error (RowError.missing "team_id")
  | some tidStr =>
    match parseIntPy tidStr with
    | none => Except.error (RowError.badInt tidStr)
    | some team_id =>
      match rget (normalizeRow ft row) "team_name" with
      | none => Except.error (RowError.missing "team_name")
      | some team_name =>
        match parseUCR ft (normalizeRow ft row) with
        | Except.error e => Except.error e
        | Except.ok ucr =>
          Except.ok
            { team_id := team_id, team_name := team_name, user_name := ucr.1,
              created := ucr.2.1, reason := ucr.2.2,
              amount := deriveAmount (normalizeRow ft row),
              currency := rgetD (normalizeRow ft row) "currency"
                (rgetD (normalizeRow ft row) "transaction_currency" "EUR"),
              subject := rgetD (normalizeRow ft row) "subject"
                (rgetD (normalizeRow ft row) "transaction_subject" ""),
              search_params := rgetD (normalizeRow ft row) "search_params" "",
              paid_date := derivePaidDate ft today row (normalizeRow ft row),
              archived := deriveArchived ft (normalizeRow ft row),
              user_paid_cell := rget (normalizeRow ft row) "user_paid" }

/-- `if team_id not in teams_map: INSERT OR IGNORE INTO teams ...;
teams_map[team_id] = team_id`. -/
def resolveTeam (p : ParsedRow) (s : DBState) (c : Caches) : DBState × Caches :=
  if p.team_id ∈ c.teams_map then (s, c)
  else
    let s' :=
      if (s.teams.find? (fun t => t.1 = p.team_id)).isSome then s
      else { s with teams := s.teams ++ [(p.team_id, p.team_name)] }
    (s', { c with teams_map := c.teams_map ++ [p.team_id] })

/-- User resolution: cache hit, else `SELECT user_id FROM users WHERE
user_name = ?`, else `INSERT INTO users` with the auto-generated id. -/
def resolveUser (p : ParsedRow) (s : DBState) (c : Caches) :
    Nat × DBState × Caches :=
  match dictGet? c.users_cache p.user_name with
  | some uid => (uid, s, c)
  | none =>
    match s.users.find? (fun u => u.2.1 = p.user_name) with
    | some u => (u.1, s, { c with users_cache := dictSet c.users_cache p.user_name u.1 })
    | none =>
      let uid := s.nextUserId
      (uid,
       { s with users := s.users ++ [(uid, p.user_name, p.team_id)],
                nextUserId := uid + 1 },
       { c with users_cache := dictSet c.users_cache p.user_name uid })

/-- The VALUES tuple appended to `batch_data`, per kind.  The dues tuple's
last column is `fixed_row.get('user_paid', 'STATUS_UNPAID')`. -/
def mkTuple (ft : FileType) (p : ParsedRow) (user_id : Nat) : Tuple :=
  match ft with
  | .dues =>
    Tuple.due { user_id := user_id, team_id := p.team_id, created := p.created,
                reason := p.reason, archived := p.archived, amount := p.amount,
                currency := p.currency, subject := p.subject,
                search_params := p.search_params, paid_date := p.paid_date,
                user_paid := p.user_paid_cell.getD "STATUS_UNPAID" }
  | .punishments =>
    Tuple.pun { user_id := user_id, team_id := p.team_id, created := p.created,
                reason := p.reason, archived := p.archived, amount := p.amount,
                currency := p.currency, subject := p.subject,
                search_params := p.search_params, paid_date := p.paid_date }
  | .transactions =>
    Tuple.tx { user_id := user_id, team_id := p.team_id, created := p.created,
               reason := p.reason, amount := p.amount, currency := p.currency,
               subject := p.subject, search_params := p.search_params }

/-- The body of the `for row in reader:` loop of `import_data`, for one row:
parse all fields, then team insert-or-ignore, user resolution through the
cache, and the tuple for the current batch. -/
def processRow (ft : FileType) (today : String) (s : DBState) (c : Caches)
    (row : RawRow) : Except RowError (DBState × Caches × Tuple) :=
  match parseRow ft today row with
  | Except.error e => Except.error e
  | Except.ok p =>
    let sc1 := resolveTeam p s c
    let usc := resolveUser p sc1.1 sc1.2
    Except.ok (usc.2.1, usc.2.2, mkTuple ft p usc.1)

/-- The row loop over one file's rows: each successful row's tuple is appended
to its kind's table (batch flushes preserve insertion order). -/
def processRows (ft : FileType) (today : String) :
    List RawRow → DBState → Caches → Except RowError (DBState × Caches)
  | [], s, c => Except.ok (s, c)
  | row :: rest, s, c =>
    match processRow ft today s c row with
    | Except.error e => Except.error e
    | Except.ok r => processRows ft today rest (appendTuple r.1 r.2.2) r.2.1

/-- One file of the run: `truncate_table` for its kind, then the row loop. -/
def processFile (ft : FileType) (today : String) (rows : List RawRow)
    (s : DBState) (c : Caches) : Except RowError (DBState × Caches) :=
  processRows ft today rows (truncateTable ft s) c

/-- The `for file_path, file_type in files_to_process:` loop. -/
def importFiles (today : String) :
    List (FileType × List RawRow) → DBState → Caches →
      Except RowError (DBState × Caches)
  | [], s, c => Except.ok (s, c)
  | (ft, rows) :: rest, s, c =>
    match processFile ft today rows s c with
    | Except.error e => Except.error e
    | Except.ok r => importFiles today rest r.1 r.2

/-- The transactional body of `import_data`: preload caches, process all
files. -/
def importRun (s : DBState) (today : String)
    (files : List (FileType × List RawRow)) : Except RowError DBState :=
  (importFiles today files s (initCaches s)).map (fun r => r.1)

/-- `import_data`: commit on success; on any fatal error the single
transaction is rolled back, restoring the pre-run state (second component
`false` signals the re-raised exception). -/
def import_data (s : DBState) (today : String)
    (files : List (FileType × List RawRow)) : DBState × Bool :=
  match importRun s today files with
  | Except.ok s' => (s', true)
  | Except.error _ => (s, false)

/-! ### Projections and concrete fixtures -/

def tupleAmount : Tuple → ℚ
  | Tuple.due t => t.amount
  | Tuple.pun t => t.amount
  | Tuple.tx t => t.amount

def tupleReasonOf : Tuple → String
  | Tuple.due t => t.reason
  | Tuple.pun t => t.reason
  | Tuple.tx t => t.reason

def tuplePaidDate : Tuple → Option String
  | Tuple.due t => t.paid_date
  | Tuple.pun t => t.paid_date
  | Tuple.tx _ => none

def tupleKind : Tuple → FileType
  | Tuple.due _ => FileType.dues
  | Tuple.pun _ => FileType.punishments
  | Tuple.tx _ => FileType.transactions

/-- The tuple produced by a successful row, `none` on a fatal row. -/
def rowOutTuple : Except RowError (DBState × Caches × Tuple) → Option Tuple
  | Except.ok r => some r.2.2
  | Except.error _ => none

/-- The users table after a successful row, `none` on a fatal row. -/
def rowOutUsers :
    Except RowError (DBState × Caches × Tuple) → Option (List (Nat × String × Int))
  | Except.ok r => some r.1.users
  | Except.error _ => none

/-- An empty store (SQLite AUTOINCREMENT hands out ids from 1). -/
def emptyDB : DBState :=
  { users := [], nextUserId := 1, teams := [], dues := [], punishments := [],
    transactions := [] }

/-- A fixed value of `datetime.now().strftime('%Y-%m-%d')`. -/
def today0 : String := "2026-10-12"

/-! ### Fatal rows abort the whole run (claims C1, C9) -/

/-- A row whose processing raises no matter what the store and caches hold
(all fatal conditions in the loop body are row-local). -/
def RowFatal (ft : FileType) (today : String) (row : RawRow) : Prop :=
  ∀ s c, ∃ e, processRow ft today s c row = Except.error e

theorem processRows_error_of_fatal (ft : FileType) (today : String)
    (r : RawRow) (hr : RowFatal ft today r) (l1 l2 : List RawRow) :
    ∀ s c, ∃ e, processRows ft today (l1 ++ r :: l2) s c = Except.error e := by
  induction l1 with
  | nil =>
    intro s c
    obtain ⟨e, he⟩ := hr s c
    exact ⟨e, by simp [processRows, he]⟩
  | cons a rest ih =>
    intro s c
    cases h : processRow ft today s c a with
    | error e => exact ⟨e, by simp [processRows, h]⟩
    | ok v =>
      obtain ⟨e, he⟩ := ih (appendTuple v.1 v.2.2) v.2.1
      exact ⟨e, by simp [processRows, h, he]⟩

theorem importFiles_error_of_fatal (today : String) (ft : FileType)
    (r : RawRow) (hr : RowFatal ft today r) (l1 l2 : List RawRow)
    (pre post : List (FileType × List RawRow)) :
    ∀ s c, ∃ e,
      importFiles today (pre ++ (ft, l1 ++ r :: l2) :: post) s c =
        Except.error e := by
  induction pre with
  | nil =>
    intro s c
    obtain ⟨e, he⟩ :=
      processRows_error_of_fatal ft today r hr l1 l2 (truncateTable ft s) c
    exact ⟨e, by simp [importFiles, processFile, he]⟩
  | cons f rest ih =>
    obtain ⟨ft', rows'⟩ := f
    intro s c
    cases h : processFile ft' today rows' s c with
    | error e => exact ⟨e, by simp [importFiles, h]⟩
    | ok v =>
      obtain ⟨e, he⟩ := ih v.1 v.2
      exact ⟨e, by simp [importFiles, h, he]⟩

/-- Shared rollback lemma: a run containing a fatal row anywhere returns the
initial state with the failure flag. -/
theorem import_data_of_fatal (s : DBState) (today : String)
    (pre post : List (FileType × List RawRow)) (ft : FileType)
    (l1 l2 : List RawRow) (r : RawRow) (hr : RowFatal ft today r) :
    import_data s today (pre ++ (ft, l1 ++ r :: l2) :: post) = (s, false) := by
  obtain ⟨e, he⟩ :=
    importFiles_error_of_fatal today ft r hr l1 l2 pre post s (initCaches s)
  simp [import_data, importRun, he, Except.map]


/-- **C1**: if any row of any file in a run fails fatally (for example its
required created date does not parse, or a required column is missing), the
run's single transaction is rolled back and zero rows from any file of that
run persist: the state after the failed run equals the state before it,
including users, teams, and all three kind tables. -/
theorem fatal_row_rolls_back_entire_run (s : DBState) (today : String)
    (pre post : List (FileType × List RawRow)) (ft : FileType)
    (l1 l2 : List RawRow) (r : RawRow) (hr : RowFatal ft today r) :
    import_data s today (pre ++ (ft, l1 ++ r :: l2) :: post) = (s, false) :=
  import_data_of_fatal s today pre post ft l1 l2 r hr

def punRowGood : RawRow :=
  [("team_id", "1"), ("team_name", "T"), ("penalty_user", "Cara"),
   ("penalty_created", "02-03-2024"), ("penalty_amount", "500")]

def dueRowGood : RawRow :=
  [("team_id", "1"), ("team_name", "T"), ("due_user", "Alice"),
   ("due_created", "26-11-2024"), ("due_name", "Membership"),
   ("due_amount", "15000")]

def dueRowBadCreated : RawRow :=
  [("team_id", "1"), ("team_name", "T"), ("due_user", "Bob"),
   ("due_created", "not-a-date")]

theorem fatal_row_rolls_back_entire_run_witness :
    RowFatal FileType.dues today0 dueRowBadCreated ∧
    import_data emptyDB today0
      [(FileType.punishments, [punRowGood]),
       (FileType.dues, [dueRowGood, dueRowBadCreated])] = (emptyDB, false) :=
  have hr : RowFatal FileType.dues today0 dueRowBadCreated :=
    fun _ _ => ⟨RowError.badDate "not-a-date", rfl⟩
  ⟨hr,
   fatal_row_rolls_back_entire_run emptyDB today0
     [(FileType.punishments, [punRowGood])] [] FileType.dues
     [dueRowGood] [] dueRowBadCreated hr⟩

/-- The implicit requirement of the loop body: a normalized `team_id` cell
parseable as `int` and a `team_name` cell. -/
def teamColsBad (ft : FileType) (row : RawRow) : Bool :=
  match rget (normalizeRow ft row) "team_id" with
  | none => true
  | some v =>
    match parseIntPy v with
    | none => true
    | some _ => (rget (normalizeRow ft row) "team_name").isNone

theorem teamColsBad_fatal (ft : FileType) (today : String) (row : RawRow)
    (h : teamColsBad ft row = true) : RowFatal ft today row := by
  intro s c
  have hp : ∃ e, parseRow ft today row = Except.error e := by
    cases h1 : rget (normalizeRow ft row) "team_id" with
    | none => exact ⟨RowError.missing "team_id", by simp only [parseRow, h1]⟩
    | some v =>
      cases h2 : parseIntPy v with
      | none => exact ⟨RowError.badInt v, by simp only [parseRow, h1, h2]⟩
      | some n =>
        cases h3 : rget (normalizeRow ft row) "team_name" with
        | none =>
          exact ⟨RowError.missing "team_name", by simp only [parseRow, h1, h2, h3]⟩
        | some w =>
          exfalso
          unfold teamColsBad at h
          rw [h1] at h
          simp [h2, h3] at h
  obtain ⟨e, he⟩ := hp
  exact ⟨e, by unfold processRow; rw [he]⟩

/-- **C9**: every data row of every kind, transactions included, must carry a
`team_id` cell parseable as an integer and a `team_name` cell; a row missing
either, or whose `team_id` is not an integer, is a fatal error that aborts the
entire run with a rollback. -/
theorem missing_team_columns_roll_back_run (s : DBState) (today : String)
    (pre post : List (FileType × List RawRow)) (ft : FileType)
    (l1 l2 : List RawRow) (r : RawRow) (h : teamColsBad ft r = true) :
    import_data s today (pre ++ (ft, l1 ++ r :: l2) :: post) = (s, false) :=
  import_data_of_fatal s today pre post ft l1 l2 r (teamColsBad_fatal ft today r h)

def txRowNoTeam : RawRow :=
  [("transaction_date", "01-01-2024"), ("transaction_amount", "100")]

theorem missing_team_columns_roll_back_run_witness :
    teamColsBad FileType.transactions txRowNoTeam = true ∧
    import_data emptyDB today0 [(FileType.transactions, [txRowNoTeam])] =
      (emptyDB, false) :=
  ⟨rfl,
   missing_team_columns_roll_back_run emptyDB today0 [] [] FileType.transactions
     [] [] txRowNoTeam rfl⟩

def dueRowStatusPaid : RawRow :=
  [("team_id", "7"), ("team_name", "Alpha"), ("due_user", "Alice"),
   ("due_created", "26-11-2024"), ("user_paid", "STATUS_PAID"),
   ("user_payment_date", "2024-01-15")]

def dueRowStatusExempt : RawRow :=
  [("team_id", "7"), ("team_name", "Alpha"), ("due_user", "Alice"),
   ("due_created", "26-11-2024"), ("user_paid", "STATUS_EXEMPT"),
   ("user_payment_date", "2024-01-15")]

/-- **C2** (code bug): `convert_payment_status` implements the documented
rule, but the loop body reads the payment date as
`fixed_row.get('user_payment_date', '')` after the dues alias table has
renamed that column to `paid_date`, so the date is always the empty string:
a due with `user_paid = STATUS_PAID` and a present, parseable
`user_payment_date` is stored with a null `paidDate`, and a
`STATUS_EXEMPT` due gets today's date even when a payment date is present. -/
theorem due_payment_date_is_never_read :
    convert_payment_status "STATUS_PAID" (some "2024-01-15") today0 =
      some "2024-01-15" ∧
    (rowOutTuple (processRow FileType.dues today0 emptyDB (initCaches emptyDB)
        dueRowStatusPaid)).map tuplePaidDate = some none ∧
    (rowOutTuple (processRow FileType.dues today0 emptyDB (initCaches emptyDB)
        dueRowStatusExempt)).map tuplePaidDate = some (some today0) ∧
    rget (normalizeRow FileType.dues dueRowStatusPaid) "user_payment_date" =
      none :=
  ⟨rfl, rfl, rfl, rfl⟩

def txRowWithSubject : RawRow :=
  [("team_id", "7"), ("team_name", "Alpha"), ("transaction_date", "05-03-2024"),
   ("transaction_subject", "Payment: Alice (cash)"),
   ("transaction_amount", "2500")]

/-- **C3** (code bug): `extract_user_from_subject` does extract `"Alice"` from
the subject `"Payment: Alice (cash)"`, but the loop body fetches the subject
as `fixed_row.get('transaction_subject', '')` after the transactions alias
table has renamed that column to `subject`, so the extractor always receives
`""`: every transaction row is stored under the placeholder user `"SYSTEM"`,
and `reason` (read via the equally renamed `transaction_reason` key with the
empty subject as fallback) is always `""` rather than the subject text. -/
theorem tx_user_and_reason_ignore_subject :
    extract_user_from_subject "Payment: Alice (cash)" = some "Alice" ∧
    rowOutUsers (processRow FileType.transactions today0 emptyDB
        (initCaches emptyDB) txRowWithSubject) = some [(1, "SYSTEM", 7)] ∧
    (rowOutTuple (processRow FileType.transactions today0 emptyDB
        (initCaches emptyDB) txRowWithSubject)).map tupleReasonOf = some "" :=
  ⟨rfl, rfl, rfl⟩

/-- `s` with its `ft`-table replaced by the corresponding table of `t`. -/
def overwriteKind (ft : FileType) (s t : DBState) : DBState :=
  match ft with
  | FileType.dues => { s with dues := t.dues }
  | FileType.punishments => { s with punishments := t.punishments }
  | FileType.transactions => { s with transactions := t.transactions }

/-- **C4** (amended): the destination table of a kind is truncated as *each*
file of that kind begins processing, so the prior contents of that table —
including rows loaded from an earlier file of the same kind in the same run —
have no effect whatsoever on processing a file of that kind. -/
theorem kind_table_prior_content_irrelevant (ft : FileType) (today : String)
    (rows : List RawRow) (s t : DBState) (c : Caches) :
    processFile ft today rows (overwriteKind ft s t) c =
      processFile ft today rows s c := by
  unfold processFile
  cases ft <;> rfl

def dueRowReasonA : RawRow :=
  [("team_id", "1"), ("team_name", "T"), ("due_user", "Alice"),
   ("due_created", "01-01-2024"), ("due_name", "RowA")]

def dueRowReasonB : RawRow :=
  [("team_id", "1"), ("team_name", "T"), ("due_user", "Alice"),
   ("due_created", "01-01-2024"), ("due_name", "RowB")]

/-- **C4** (counterexample): a run with two dues files succeeds, yet only the
second file's row is in the dues table after commit — the first file's row was
wiped by the truncation performed when the second file began, refuting
"truncated as that kind's first file is processed ... and only then" and
"the rows of every such file are present after commit". -/
theorem second_file_of_kind_wipes_first :
    (import_data emptyDB today0
      [(FileType.dues, [dueRowReasonA]), (FileType.dues, [dueRowReasonB])]).2 =
      true ∧
    ((import_data emptyDB today0
      [(FileType.dues, [dueRowReasonA]), (FileType.dues, [dueRowReasonB])]).1).dues.map
        (fun t => t.reason) = ["RowB"] :=
  ⟨rfl, rfl⟩

def punRowSpellA : RawRow :=
  [("team_id", "1"), ("team_name", "T"), ("penalty_user", "Bob"),
   ("penalty_created", "01-02-2024"), ("penalty_paid", "15-03-2024")]

def punRowSpellB : RawRow :=
  [("team_id", "1"), ("team_name", "T"), ("penalty_user", "Bob"),
   ("penalty_created", "01-02-2024"), ("user_payment_date", "15-03-2024")]

/-- **C7** (counterexample): `penalty_paid` and `user_payment_date` are both
documented aliases mapping to the canonical `paid_date` for punishments, and
the two rows normalize identically; yet the punishments paid-date logic reads
the *raw* row keys `penatly_paid`/`penalty_paid`, so the first row is stored
with paid date `2024-03-15` and the second with a null paid date — identical
normalized rows, different inserted tuples. -/
theorem alias_equal_rows_unequal_tuples :
    normalizeRow FileType.punishments punRowSpellA =
      normalizeRow FileType.punishments punRowSpellB ∧
    (rowOutTuple (processRow FileType.punishments today0 emptyDB
        (initCaches emptyDB) punRowSpellA)).map tuplePaidDate =
      some (some "2024-03-15") ∧
    (rowOutTuple (processRow FileType.punishments today0 emptyDB
        (initCaches emptyDB) punRowSpellB)).map tuplePaidDate = some none :=
  ⟨rfl, rfl, rfl⟩

theorem derivePaidDate_congr (ft : FileType) (today : String)
    (r1 r2 fixed : RawRow) (hp : punPaidStr r1 = punPaidStr r2) :
    derivePaidDate ft today r1 fixed = derivePaidDate ft today r2 fixed := by
  cases ft with
  | punishments => unfold derivePaidDate; rw [hp]
  | dues => rfl
  | transactions => rfl

/-- A row enters `processRow` only through its normalization and through the
raw-row paid-date lookup of the punishments branch. -/
theorem processRow_row_congr (ft : FileType) (today : String) (s : DBState)
    (c : Caches) (r1 r2 : RawRow)
    (hn : normalizeRow ft r1 = normalizeRow ft r2)
    (hp : punPaidStr r1 = punPaidStr r2) :
    processRow ft today s c r1 = processRow ft today s c r2 := by
  unfold processRow parseRow
  rw [hn, derivePaidDate_congr ft today r1 r2 (normalizeRow ft r2) hp]

def punRowSpelled (paidKey userKey reasonKey : String)
    (ti tn u cr rsn pd am cu su : String) : RawRow :=
  [("team_id", ti), ("team_name", tn), (userKey, u), ("penalty_created", cr),
   (reasonKey, rsn), (paidKey, pd), ("penalty_amount", am),
   ("penalty_currency", cu), ("penalty_subject", su)]

def dueRowSpelled (userKey : String) (ti tn u cr rsn : String) : RawRow :=
  [("team_id", ti), ("team_name", tn), (userKey, u), ("due_created", cr),
   ("due_name", rsn)]

/-- **C7** (amended): two input files of the same kind with identical cell
data and differing header spellings among the claim's example alias pairs
(`penalty_paid` vs `penatly_paid`, `penalty_user`/`username`,
`penalty_reason`/`penalty_name`, and `due_user` vs `username` for dues)
produce identical normalized rows *and* identical processing results — the
exception being a punishments paid column spelled `user_payment_date`
(see the counterexample), which the raw-row paid-date lookup misses. -/
theorem documented_alias_pairs_equivalent :
    (∀ (b1 b2 b3 : Bool) (ti tn u cr rsn pd am cu su today : String)
       (s : DBState) (c : Caches),
       processRow FileType.punishments today s c
         (punRowSpelled (if b1 then "penalty_paid" else "penatly_paid")
           (if b2 then "penalty_user" else "username")
           (if b3 then "penalty_reason" else "penalty_name")
           ti tn u cr rsn pd am cu su) =
       processRow FileType.punishments today s c
         (punRowSpelled "penalty_paid" "penalty_user" "penalty_reason"
           ti tn u cr rsn pd am cu su)) ∧
    (∀ (b4 : Bool) (ti tn u cr rsn today : String) (s : DBState) (c : Caches),
       processRow FileType.dues today s c
         (dueRowSpelled (if b4 then "due_user" else "username") ti tn u cr rsn) =
       processRow FileType.dues today s c
         (dueRowSpelled "due_user" ti tn u cr rsn)) := by
  constructor
  · intro b1 b2 b3 ti tn u cr rsn pd am cu su today s c
    cases b1 <;> cases b2 <;> cases b3 <;>
      exact processRow_row_congr _ _ _ _ _ _ rfl rfl
  · intro b4 ti tn u cr rsn today s c
    cases b4 <;> exact processRow_row_congr _ _ _ _ _ _ rfl rfl

/-! ### Field projection lemmas (claims C8, C10) -/

theorem parseRow_ok_fields (ft : FileType) (today : String) (row : RawRow)
    (p : ParsedRow) (h : parseRow ft today row = Except.ok p) :
    p.amount = deriveAmount (normalizeRow ft row) ∧
    p.user_paid_cell = rget (normalizeRow ft row) "user_paid" := by
  unfold parseRow at h
  repeat' split at h
  all_goals cases h
  all_goals exact ⟨rfl, rfl⟩

theorem tupleAmount_mkTuple (ft : FileType) (p : ParsedRow) (uid : Nat) :
    tupleAmount (mkTuple ft p uid) = p.amount := by
  cases ft <;> rfl

/-- **C8**: for every imported row of every kind whose normalized `amount`
cell is `v`, the stored amount equals `v` parsed as a number divided by 100
(`"15000"` yields `150`), and an unparsable cell defaults to `0` while the row
still processes (non-fatally). -/
theorem amount_is_cents_div_100 (ft : FileType) (today : String) (s : DBState)
    (c : Caches) (row : RawRow) (t : Tuple)
    (h : rowOutTuple (processRow ft today s c row) = some t)
    (v : String) (hv : rget (normalizeRow ft row) "amount" = some v) :
    tupleAmount t =
      match parseFloatQ v with
      | some q => q / 100
      | none => 0 := by
  unfold processRow at h
  cases hp : parseRow ft today row with
  | error e => rw [hp] at h; exact absurd h (by simp [rowOutTuple])
  | ok p =>
    rw [hp] at h
    simp only [rowOutTuple, Option.some.injEq] at h
    obtain ⟨ha, _⟩ := parseRow_ok_fields ft today row p hp
    rw [← h, tupleAmount_mkTuple, ha]
    unfold deriveAmount
    rw [rgetD, hv]
    rfl

def dueRowAbc : RawRow :=
  [("team_id", "1"), ("team_name", "T"), ("due_user", "Alice"),
   ("due_created", "26-11-2024"), ("due_name", "Membership"),
   ("due_amount", "abc")]

def c8DueTupleA : Tuple :=
  Tuple.due
    { user_id := 1, team_id := 1, created := "2024-11-26",
      reason := "Membership", archived := 0, amount := (15000 : ℚ) / 100,
      currency := "EUR", subject := "", search_params := "",
      paid_date := none, user_paid := "STATUS_UNPAID" }

def c8DueTupleB : Tuple :=
  Tuple.due
    { user_id := 1, team_id := 1, created := "2024-11-26",
      reason := "Membership", archived := 0, amount := 0, currency := "EUR",
      subject := "", search_params := "", paid_date := none,
      user_paid := "STATUS_UNPAID" }

theorem amount_is_cents_div_100_witness :
    tupleAmount c8DueTupleA = 150 ∧ tupleAmount c8DueTupleB = 0 := by
  have h1 := amount_is_cents_div_100 FileType.dues today0 emptyDB
    (initCaches emptyDB) dueRowGood c8DueTupleA rfl "15000" rfl
  have h2 := amount_is_cents_div_100 FileType.dues today0 emptyDB
    (initCaches emptyDB) dueRowAbc c8DueTupleB rfl "abc" rfl
  constructor
  · rw [h1]
    show ((15000 : ℕ) : ℚ) / 100 = 150
    norm_num
  · rw [h2]
    rfl

/-- **C10**: the stored `user_paid` column of a due is the normalized row's
`user_paid` cell verbatim — including when the cell is blank — and the default
`STATUS_UNPAID` is stored only when the `user_paid` column is absent. -/
theorem due_user_paid_stored_verbatim (today : String) (s : DBState)
    (c : Caches) (row : RawRow) (dt : DueTuple)
    (h : rowOutTuple (processRow FileType.dues today s c row) =
      some (Tuple.due dt)) :
    (∀ v, rget (normalizeRow FileType.dues row) "user_paid" = some v →
      dt.user_paid = v) ∧
    (rget (normalizeRow FileType.dues row) "user_paid" = none →
      dt.user_paid = "STATUS_UNPAID") := by
  unfold processRow at h
  cases hp : parseRow FileType.dues today row with
  | error e => rw [hp] at h; exact absurd h (by simp [rowOutTuple])
  | ok p =>
    rw [hp] at h
    simp only [rowOutTuple, Option.some.injEq] at h
    obtain ⟨_, hu⟩ := parseRow_ok_fields FileType.dues today row p hp
    have hdt : dt.user_paid = p.user_paid_cell.getD "STATUS_UNPAID" := by
      have := congrArg (fun t =>
        match t with
        | Tuple.due d => d.user_paid
        | _ => "") h
      simpa [mkTuple] using this.symm
    constructor
    · intro v hv
      rw [hdt, hu, hv]
      rfl
    · intro hv
      rw [hdt, hu, hv]
      rfl

def dueRowBlankPaid : RawRow :=
  [("team_id", "1"), ("team_name", "T"), ("due_user", "Alice"),
   ("due_created", "26-11-2024"), ("user_paid", "")]

def c10DueTuple : DueTuple :=
  { user_id := 1, team_id := 1, created := "2024-11-26", reason := "",
    archived := 0, amount := (0 : ℚ) / 100, currency := "EUR", subject := "",
    search_params := "", paid_date := none, user_paid := "" }

theorem due_user_paid_stored_verbatim_witness : c10DueTuple.user_paid = "" :=
  (due_user_paid_stored_verbatim today0 emptyDB (initCaches emptyDB)
    dueRowBlankPaid c10DueTuple rfl).1 "" rfl

/-! ### User-name uniqueness (claim C6) -/

/-- The users table holds at most one row per distinct name. -/
def nodupNames (users : List (Nat × String × Int)) : Prop :=
  (users.map (fun u => u.2.1)).Nodup

theorem resolveTeam_users (p : ParsedRow) (s : DBState) (c : Caches) :
    ((resolveTeam p s c).1).users = s.users := by
  unfold resolveTeam
  repeat' split
  all_goals rfl

theorem resolveTeam_nextUserId (p : ParsedRow) (s : DBState) (c : Caches) :
    ((resolveTeam p s c).1).nextUserId = s.nextUserId := by
  unfold resolveTeam
  repeat' split
  all_goals rfl

theorem appendTuple_users (s : DBState) (t : Tuple) :
    (appendTuple s t).users = s.users := by
  cases t <;> rfl

theorem truncateTable_users (ft : FileType) (s : DBState) :
    (truncateTable ft s).users = s.users := by
  cases ft <;> rfl

theorem resolveUser_nodup (p : ParsedRow) (s : DBState) (c : Caches)
    (h : nodupNames s.users) :
    nodupNames ((resolveUser p s c).2.1).users := by
  unfold resolveUser
  cases dictGet? c.users_cache p.user_name with
  | some uid => exact h
  | none =>
    cases hf : s.users.find? (fun u => u.2.1 = p.user_name) with
    | some u => exact h
    | none =>
      have hnm : ∀ u ∈ s.users, ¬(u.2.1 = p.user_name) := by
        intro u hu
        have := List.find?_eq_none.mp hf u hu
        simpa using this
      unfold nodupNames at h ⊢
      simp only [List.map_append, List.map_cons, List.map_nil]
      rw [List.nodup_append]
      refine ⟨h, List.nodup_singleton _, ?_⟩
      intro a ha hb
      simp only [List.mem_singleton] at hb
      subst hb
      obtain ⟨u, hu, hn⟩ := List.mem_map.mp ha
      exact hnm u hu hn

theorem processRow_nodup (ft : FileType) (today : String) (s : DBState)
    (c : Caches) (row : RawRow) (r : DBState × Caches × Tuple)
    (h : processRow ft today s c row = Except.ok r)
    (hn : nodupNames s.users) : nodupNames r.1.users := by
  unfold processRow at h
  cases hp : parseRow ft today row with
  | error e => rw [hp] at h; cases h
  | ok p =>
    rw [hp] at h
    cases h
    have h1 : nodupNames ((resolveTeam p s c).1).users := by
      rw [resolveTeam_users]; exact hn
    exact resolveUser_nodup p (resolveTeam p s c).1 (resolveTeam p s c).2 h1

theorem processRows_nodup (ft : FileType) (today : String) :
    ∀ (rows : List RawRow) (s : DBState) (c : Caches) (r : DBState × Caches),
      processRows ft today rows s c = Except.ok r →
      nodupNames s.users → nodupNames r.1.users := by
  intro rows
  induction rows with
  | nil => intro s c r h hn; cases h; exact hn
  | cons row rest ih =>
    intro s c r h hn
    unfold processRows at h
    cases hp : processRow ft today s c row with
    | error e => rw [hp] at h; cases h
    | ok v =>
      rw [hp] at h
      refine ih (appendTuple v.1 v.2.2) v.2.1 r h ?_
      rw [appendTuple_users]
      exact processRow_nodup ft today s c row v hp hn

theorem importFiles_nodup (today : String) :
    ∀ (files : List (FileType × List RawRow)) (s : DBState) (c : Caches)
      (r : DBState × Caches),
      importFiles today files s c = Except.ok r →
      nodupNames s.users → nodupNames r.1.users := by
  intro files
  induction files with
  | nil => intro s c r h hn; cases h; exact hn
  | cons f rest ih =>
    obtain ⟨ft, rows⟩ := f
    intro s c r h hn
    unfold importFiles at h
    cases hp : processFile ft today rows s c with
    | error e => rw [hp] at h; cases h
    | ok v =>
      rw [hp] at h
      refine ih v.1 v.2 r h ?_
      unfold processFile at hp
      refine processRows_nodup ft today rows (truncateTable ft s) c v hp ?_
      rw [truncateTable_users]
      exact hn

/-- **C6**: a run preserves the invariant that the users table contains at
most one row per distinct user name; since rows are resolved through the
name-keyed cache and table, at most one users row is created per distinct name
per run. -/
theorem user_names_unique (s : DBState) (today : String)
    (files : List (FileType × List RawRow)) (s' : DBState)
    (h : importRun s today files = Except.ok s')
    (hn : nodupNames s.users) : nodupNames s'.users := by
  unfold importRun at h
  cases hf : importFiles today files s (initCaches s) with
  | error e => rw [hf] at h; cases h
  | ok r =>
    rw [hf] at h
    cases h
    exact importFiles_nodup today files s (initCaches s) r hf hn

def c6DB : DBState :=
  { users := [(1, "Alice", 1)], nextUserId := 2, teams := [(1, "T")],
    dues :=
      [{ user_id := 1, team_id := 1, created := "2024-11-26",
         reason := "Membership", archived := 0, amount := (15000 : ℚ) / 100,
         currency := "EUR", subject := "", search_params := "",
         paid_date := none, user_paid := "STATUS_UNPAID" }],
    punishments := [], transactions := [] }

theorem user_names_unique_witness : nodupNames c6DB.users :=
  user_names_unique emptyDB today0 [(FileType.dues, [dueRowGood])] c6DB rfl
    (by simp [nodupNames, emptyDB])

/-! ### Cache/dictionary lemmas (towards claim C5) -/

theorem dictGet?_dictSet_self {β : Type} (l : List (String × β)) (k : String)
    (v : β) : dictGet? (dictSet l k v) k = some v := by
  induction l with
  | nil => simp [dictSet, dictGet?]
  | cons kv rest ih =>
    by_cases h : kv.1 = k
    · simp [dictSet, h, dictGet?]
    · simp [dictSet, h, dictGet?, ih]

theorem dictGet?_dictSet_ne {β : Type} (l : List (String × β)) (k k' : String)
    (v : β) (h : k' ≠ k) : dictGet? (dictSet l k v) k' = dictGet? l k' := by
  have hne : ¬(k = k') := fun he => h he.symm
  induction l with
  | nil => simp only [dictSet, dictGet?, if_neg hne]
  | cons kv rest ih =>
    obtain ⟨k1, v1⟩ := kv
    simp only [dictSet]
    by_cases hk : k1 = k
    · rw [if_pos hk]
      simp only [dictGet?]
      rw [if_neg hne, if_neg (fun he => hne (hk.symm.trans he))]
    · rw [if_neg hk]
      simp only [dictGet?]
      by_cases hk' : k1 = k'
      · rw [if_pos hk', if_pos hk']
      · rw [if_neg hk', if_neg hk', ih]

/-- Every binding of `c` is still present in `c'`. -/
def cacheExtends (c c' : List (String × Nat)) : Prop :=
  ∀ n uid, dictGet? c n = some uid → dictGet? c' n = some uid

theorem cacheExtends_refl (c : List (String × Nat)) : cacheExtends c c :=
  fun _ _ h => h

theorem cacheExtends_trans {a b c : List (String × Nat)}
    (h1 : cacheExtends a b) (h2 : cacheExtends b c) : cacheExtends a c :=
  fun n uid h => h2 n uid (h1 n uid h)

theorem cacheExtends_dictSet (c : List (String × Nat)) (k : String) (v : Nat)
    (h : dictGet? c k = none) : cacheExtends c (dictSet c k v) := by
  intro n uid hn
  have hne : n ≠ k := by
    intro he
    subst he
    rw [h] at hn
    cases hn
  rw [dictGet?_dictSet_ne c k n v hne]
  exact hn

theorem cacheOfUsers_append (us : List (Nat × String × Int))
    (u : Nat × String × Int) :
    cacheOfUsers (us ++ [u]) = dictSet (cacheOfUsers us) u.2.1 u.1 := by
  unfold cacheOfUsers
  rw [List.foldl_append]
  rfl

theorem dictGet?_foldl_isSome (us : List (Nat × String × Int)) :
    ∀ (acc : List (String × Nat)) (n : String),
      (dictGet? (us.foldl (fun a u => dictSet a u.2.1 u.1) acc) n).isSome ↔
        (dictGet? acc n).isSome ∨ ∃ u ∈ us, u.2.1 = n := by
  induction us with
  | nil => intro acc n; simp
  | cons u rest ih =>
    intro acc n
    rw [List.foldl_cons, ih]
    by_cases h : n = u.2.1
    · subst h
      simp [dictGet?_dictSet_self]
    · rw [dictGet?_dictSet_ne _ _ _ _ h]
      constructor
      · rintro (hs | ⟨w, hw, he⟩)
        · exact Or.inl hs
        · exact Or.inr ⟨w, List.mem_cons_of_mem u hw, he⟩
      · rintro (hs | ⟨w, hw, he⟩)
        · exact Or.inl hs
        · rcases List.mem_cons.mp hw with hw1 | hw2
          · subst hw1; exact absurd he.symm h
          · exact Or.inr ⟨w, hw2, he⟩

theorem find?_eq_none_of_cache_none (us : List (Nat × String × Int))
    (n : String) (h : dictGet? (cacheOfUsers us) n = none) :
    us.find? (fun u => u.2.1 = n) = none := by
  rw [List.find?_eq_none]
  intro u hu hn
  simp only [decide_eq_true_eq] at hn
  have hs : (dictGet? (cacheOfUsers us) n).isSome :=
    (dictGet?_foldl_isSome us [] n).mpr (Or.inr ⟨u, hu, hn⟩)
  rw [h] at hs
  cases hs

/-- The run-scoped caches mirror the store exactly, as right after the two
preload queries of `import_data`. -/
def goodCaches (s : DBState) (c : Caches) : Prop := c = initCaches s

theorem resolveTeam_mem (p : ParsedRow) (T : DBState) (d : Caches)
    (h : p.team_id ∈ d.teams_map) : resolveTeam p T d = (T, d) := by
  unfold resolveTeam
  rw [if_pos h]

theorem resolveUser_hit (p : ParsedRow) (T : DBState) (d : Caches) (uid : Nat)
    (h : dictGet? d.users_cache p.user_name = some uid) :
    resolveUser p T d = (uid, T, d) := by
  unfold resolveUser
  rw [h]

theorem resolveTeam_spec (p : ParsedRow) (s : DBState) (c : Caches)
    (hg : goodCaches s c) :
    goodCaches (resolveTeam p s c).1 (resolveTeam p s c).2 ∧
    ((resolveTeam p s c).2).users_cache = c.users_cache ∧
    (∀ i ∈ c.teams_map, i ∈ ((resolveTeam p s c).2).teams_map) ∧
    p.team_id ∈ ((resolveTeam p s c).2).teams_map ∧
    ((resolveTeam p s c).1).users = s.users ∧
    ((resolveTeam p s c).1).nextUserId = s.nextUserId ∧
    ((resolveTeam p s c).1).dues = s.dues ∧
    ((resolveTeam p s c).1).punishments = s.punishments ∧
    ((resolveTeam p s c).1).transactions = s.transactions := by
  subst hg
  unfold resolveTeam
  by_cases hm : p.team_id ∈ (initCaches s).teams_map
  · rw [if_pos hm]
    exact ⟨rfl, rfl, fun i hi => hi, hm, rfl, rfl, rfl, rfl, rfl⟩
  · rw [if_neg hm]
    have hfind : s.teams.find? (fun t => t.1 = p.team_id) = none := by
      rw [List.find?_eq_none]
      intro u hu hueq
      simp only [decide_eq_true_eq] at hueq
      refine hm ?_
      show p.team_id ∈ (s.teams.map (fun t => t.1))
      exact hueq ▸ List.mem_map_of_mem (fun t => t.1) hu
    rw [hfind]
    refine ⟨?_, rfl, ?_, ?_, rfl, rfl, rfl, rfl, rfl⟩
    · show Caches.mk _ _ = initCaches _
      unfold initCaches
      simp
    · intro i hi
      exact List.mem_append_left _ hi
    · exact List.mem_append_right _ (List.mem_singleton.mpr rfl)

theorem resolveUser_spec (p : ParsedRow) (s : DBState) (c : Caches)
    (hg : goodCaches s c) :
    goodCaches (resolveUser p s c).2.1 (resolveUser p s c).2.2 ∧
    cacheExtends c.users_cache ((resolveUser p s c).2.2).users_cache ∧
    dictGet? ((resolveUser p s c).2.2).users_cache p.user_name =
      some (resolveUser p s c).1 ∧
    ((resolveUser p s c).2.2).teams_map = c.teams_map ∧
    ((resolveUser p s c).2.1).teams = s.teams ∧
    ((resolveUser p s c).2.1).dues = s.dues ∧
    ((resolveUser p s c).2.1).punishments = s.punishments ∧
    ((resolveUser p s c).2.1).transactions = s.transactions := by
  subst hg
  unfold resolveUser
  cases hu : dictGet? (initCaches s).users_cache p.user_name with
  | some uid =>
    exact ⟨rfl, cacheExtends_refl _, hu, rfl, rfl, rfl, rfl, rfl⟩
  | none =>
    have hcache : dictGet? (cacheOfUsers s.users) p.user_name = none := hu
    have hfind : s.users.find? (fun u => u.2.1 = p.user_name) = none :=
      find?_eq_none_of_cache_none s.users p.user_name hcache
    rw [hfind]
    refine ⟨?_, cacheExtends_dictSet _ _ _ hcache, dictGet?_dictSet_self _ _ _,
      rfl, rfl, rfl, rfl, rfl⟩
    show Caches.mk _ _ = initCaches _
    unfold initCaches
    rw [cacheOfUsers_append]

theorem tupleKind_mkTuple (ft : FileType) (p : ParsedRow) (uid : Nat) :
    tupleKind (mkTuple ft p uid) = ft := by
  cases ft <;> rfl

/-- One row of a run, replayed: under exact caches, a successful row leaves
behind caches that still mirror the store, only ever grows them, does not
touch the kind tables, and — from any later state whose caches extend the
row's final caches — processes to exactly the same tuple with no store or
cache change at all. -/
theorem processRow_run2 (ft : FileType) (today : String) (s : DBState)
    (c : Caches) (row : RawRow) (s2 : DBState) (c2 : Caches) (t : Tuple)
    (hg : goodCaches s c)
    (h : processRow ft today s c row = Except.ok (s2, c2, t)) :
    goodCaches s2 c2 ∧
    cacheExtends c.users_cache c2.users_cache ∧
    (∀ i ∈ c.teams_map, i ∈ c2.teams_map) ∧
    s2.dues = s.dues ∧ s2.punishments = s.punishments ∧
    s2.transactions = s.transactions ∧
    tupleKind t = ft ∧
    (∀ (T : DBState) (d : Caches),
      cacheExtends c2.users_cache d.users_cache →
      (∀ i ∈ c2.teams_map, i ∈ d.teams_map) →
      processRow ft today T d row = Except.ok (T, d, t)) := by
  unfold processRow at h
  cases hp : parseRow ft today row with
  | error e => rw [hp] at h; cases h
  | ok p =>
    rw [hp] at h
    simp only [Except.ok.injEq, Prod.mk.injEq] at h
    obtain ⟨hs2, hc2, ht⟩ := h
    subst hs2
    subst hc2
    subst ht
    obtain ⟨hgT, hTu, hTsub, hTmem, hTusers, hTnext, hTd, hTp, hTt⟩ :=
      resolveTeam_spec p s c hg
    obtain ⟨hgU, hUext, hUhit, hUteams, hUt, hUd, hUp, hUtx⟩ :=
      resolveUser_spec p (resolveTeam p s c).1 (resolveTeam p s c).2 hgT
    refine ⟨hgU, ?_, ?_, ?_, ?_, ?_, tupleKind_mkTuple ft p _, ?_⟩
    · rw [hTu] at hUext
      exact hUext
    · intro i hi
      rw [hUteams]
      exact hTsub i hi
    · rw [hUd, hTd]
    · rw [hUp, hTp]
    · rw [hUtx, hTt]
    · intro T d hdu hdt
      have hmem : p.team_id ∈ d.teams_map := by
        refine hdt _ ?_
        rw [hUteams]
        exact hTmem
      have hhit : dictGet? d.users_cache p.user_name =
          some (resolveUser p (resolveTeam p s c).1 (resolveTeam p s c).2).1 :=
        hdu _ _ hUhit
      simp only [processRow, hp, resolveTeam_mem p T d hmem,
        resolveUser_hit p T d
          ((resolveUser p (resolveTeam p s c).1 (resolveTeam p s c).2).1) hhit]

def appendTuples (T : DBState) (ts : List Tuple) : DBState :=
  ts.foldl appendTuple T

def duesOf (ts : List Tuple) : List DueTuple :=
  ts.filterMap (fun t => match t with | Tuple.due d => some d | _ => none)

def punsOf (ts : List Tuple) : List PunTuple :=
  ts.filterMap (fun t => match t with | Tuple.pun d => some d | _ => none)

def txsOf (ts : List Tuple) : List TxTuple :=
  ts.filterMap (fun t => match t with | Tuple.tx d => some d | _ => none)

theorem appendTuple_nextUserId (s : DBState) (t : Tuple) :
    (appendTuple s t).nextUserId = s.nextUserId := by cases t <;> rfl

theorem appendTuple_teams (s : DBState) (t : Tuple) :
    (appendTuple s t).teams = s.teams := by cases t <;> rfl

theorem initCaches_appendTuple (s : DBState) (t : Tuple) :
    initCaches (appendTuple s t) = initCaches s := by cases t <;> rfl

theorem initCaches_truncate (ft : FileType) (s : DBState) :
    initCaches (truncateTable ft s) = initCaches s := by cases ft <;> rfl

theorem appendTuples_users (ts : List Tuple) :
    ∀ T : DBState, (appendTuples T ts).users = T.users := by
  induction ts with
  | nil => intro T; rfl
  | cons t rest ih =>
    intro T
    show (appendTuples (appendTuple T t) rest).users = T.users
    rw [ih, appendTuple_users]

theorem appendTuples_nextUserId (ts : List Tuple) :
    ∀ T : DBState, (appendTuples T ts).nextUserId = T.nextUserId := by
  induction ts with
  | nil => intro T; rfl
  | cons t rest ih =>
    intro T
    show (appendTuples (appendTuple T t) rest).nextUserId = T.nextUserId
    rw [ih, appendTuple_nextUserId]

theorem appendTuples_teams (ts : List Tuple) :
    ∀ T : DBState, (appendTuples T ts).teams = T.teams := by
  induction ts with
  | nil => intro T; rfl
  | cons t rest ih =>
    intro T
    show (appendTuples (appendTuple T t) rest).teams = T.teams
    rw [ih, appendTuple_teams]

theorem appendTuples_dues (ts : List Tuple) :
    ∀ T : DBState, (appendTuples T ts).dues = T.dues ++ duesOf ts := by
  induction ts with
  | nil => intro T; simp [appendTuples, duesOf]
  | cons t rest ih =>
    intro T
    show (appendTuples (appendTuple T t) rest).dues = T.dues ++ duesOf (t :: rest)
    rw [ih]
    cases t <;> simp [appendTuple, duesOf, List.filterMap_cons]

theorem appendTuples_punishments (ts : List Tuple) :
    ∀ T : DBState,
      (appendTuples T ts).punishments = T.punishments ++ punsOf ts := by
  induction ts with
  | nil => intro T; simp [appendTuples, punsOf]
  | cons t rest ih =>
    intro T
    show (appendTuples (appendTuple T t) rest).punishments =
      T.punishments ++ punsOf (t :: rest)
    rw [ih]
    cases t <;> simp [appendTuple, punsOf, List.filterMap_cons]

theorem appendTuples_transactions (ts : List Tuple) :
    ∀ T : DBState,
      (appendTuples T ts).transactions = T.transactions ++ txsOf ts := by
  induction ts with
  | nil => intro T; simp [appendTuples, txsOf]
  | cons t rest ih =>
    intro T
    show (appendTuples (appendTuple T t) rest).transactions =
      T.transactions ++ txsOf (t :: rest)
    rw [ih]
    cases t <;> simp [appendTuple, txsOf, List.filterMap_cons]

theorem duesOf_eq_nil (ts : List Tuple)
    (h : ∀ t ∈ ts, tupleKind t ≠ FileType.dues) : duesOf ts = [] := by
  induction ts with
  | nil => rfl
  | cons t rest ih =>
    have ht := h t (List.mem_cons_self t rest)
    have hrest := ih (fun x hx => h x (List.mem_cons_of_mem t hx))
    cases t with
    | due d => exact absurd rfl ht
    | pun d => simpa [duesOf, List.filterMap_cons] using hrest
    | tx d => simpa [duesOf, List.filterMap_cons] using hrest

theorem punsOf_eq_nil (ts : List Tuple)
    (h : ∀ t ∈ ts, tupleKind t ≠ FileType.punishments) : punsOf ts = [] := by
  induction ts with
  | nil => rfl
  | cons t rest ih =>
    have ht := h t (List.mem_cons_self t rest)
    have hrest := ih (fun x hx => h x (List.mem_cons_of_mem t hx))
    cases t with
    | pun d => exact absurd rfl ht
    | due d => simpa [punsOf, List.filterMap_cons] using hrest
    | tx d => simpa [punsOf, List.filterMap_cons] using hrest

theorem txsOf_eq_nil (ts : List Tuple)
    (h : ∀ t ∈ ts, tupleKind t ≠ FileType.transactions) : txsOf ts = [] := by
  induction ts with
  | nil => rfl
  | cons t rest ih =>
    have ht := h t (List.mem_cons_self t rest)
    have hrest := ih (fun x hx => h x (List.mem_cons_of_mem t hx))
    cases t with
    | tx d => exact absurd rfl ht
    | due d => simpa [txsOf, List.filterMap_cons] using hrest
    | pun d => simpa [txsOf, List.filterMap_cons] using hrest

/-- The row loop of one file, replayed: a successful pass leaves mirroring
caches, grows them monotonically, appends exactly its tuples (all of the
file's kind) to the kind tables, and — from any later state whose caches
extend the final caches — re-processing the same rows appends exactly the
same tuples and changes nothing else. -/
theorem processRows_run2 (ft : FileType) (today : String) :
    ∀ (rows : List RawRow) (s : DBState) (c : Caches) (s' : DBState)
      (c' : Caches),
      goodCaches s c →
      processRows ft today rows s c = Except.ok (s', c') →
      goodCaches s' c' ∧
      cacheExtends c.users_cache c'.users_cache ∧
      (∀ i ∈ c.teams_map, i ∈ c'.teams_map) ∧
      ∃ ts : List Tuple,
        (∀ t ∈ ts, tupleKind t = ft) ∧
        s'.dues = s.dues ++ duesOf ts ∧
        s'.punishments = s.punishments ++ punsOf ts ∧
        s'.transactions = s.transactions ++ txsOf ts ∧
        (∀ (T : DBState) (d : Caches),
          cacheExtends c'.users_cache d.users_cache →
          (∀ i ∈ c'.teams_map, i ∈ d.teams_map) →
          processRows ft today rows T d = Except.ok (appendTuples T ts, d)) := by
  intro rows
  induction rows with
  | nil =>
    intro s c s' c' hg h
    unfold processRows at h
    simp only [Except.ok.injEq, Prod.mk.injEq] at h
    obtain ⟨h1, h2⟩ := h
    subst h1
    subst h2
    refine ⟨hg, cacheExtends_refl _, fun i hi => hi, [], ?_, ?_, ?_, ?_, ?_⟩
    · intro t ht; exact absurd ht (List.not_mem_nil t)
    · simp [duesOf]
    · simp [punsOf]
    · simp [txsOf]
    · intro T d _ _; rfl
  | cons row rest ih =>
    intro s c s' c' hg h
    unfold processRows at h
    cases hp : processRow ft today s c row with
    | error e => rw [hp] at h; cases h
    | ok v =>
      obtain ⟨vs, vc, vt⟩ := v
      rw [hp] at h
      obtain ⟨hgv, hextv, hsubv, hdv, hpv, htv, hkv, hreplayv⟩ :=
        processRow_run2 ft today s c row vs vc vt hg hp
      have hgav : goodCaches (appendTuple vs vt) vc := by
        unfold goodCaches at hgv ⊢
        rw [hgv, initCaches_appendTuple]
      obtain ⟨hg', hext', hsub', ts', hk', hd', hp', ht', hreplay'⟩ :=
        ih (appendTuple vs vt) vc s' c' hgav h
      refine ⟨hg', cacheExtends_trans hextv hext', ?_, vt :: ts', ?_, ?_, ?_, ?_,
        ?_⟩
      · intro i hi; exact hsub' i (hsubv i hi)
      · intro t ht
        rcases List.mem_cons.mp ht with h1 | h2
        · subst h1; exact hkv
        · exact hk' t h2
      · rw [hd']
        cases vt with
        | due d => simp [appendTuple, duesOf, List.filterMap_cons, hdv]
        | pun d => simp [appendTuple, duesOf, List.filterMap_cons, hdv]
        | tx d => simp [appendTuple, duesOf, List.filterMap_cons, hdv]
      · rw [hp']
        cases vt with
        | due d => simp [appendTuple, punsOf, List.filterMap_cons, hpv]
        | pun d => simp [appendTuple, punsOf, List.filterMap_cons, hpv]
        | tx d => simp [appendTuple, punsOf, List.filterMap_cons, hpv]
      · rw [ht']
        cases vt with
        | due d => simp [appendTuple, txsOf, List.filterMap_cons, htv]
        | pun d => simp [appendTuple, txsOf, List.filterMap_cons, htv]
        | tx d => simp [appendTuple, txsOf, List.filterMap_cons, htv]
      · intro T d hdu hdt
        have hdu2 : cacheExtends vc.users_cache d.users_cache :=
          cacheExtends_trans hext' hdu
        have hdt2 : ∀ i ∈ vc.teams_map, i ∈ d.teams_map :=
          fun i hi => hdt i (hsub' i hi)
        unfold processRows
        rw [hreplayv T d hdu2 hdt2]
        exact hreplay' (appendTuple T vt) d hdu hdt

theorem DBState_eq (a b : DBState) (h1 : a.users = b.users)
    (h2 : a.nextUserId = b.nextUserId) (h3 : a.teams = b.teams)
    (h4 : a.dues = b.dues) (h5 : a.punishments = b.punishments)
    (h6 : a.transactions = b.transactions) : a = b := by
  cases a
  cases b
  simp_all

/-- **C5**: re-running the import of the same single file from the state a
successful run produced yields exactly the same state again — the kind's
table holds exactly the file's rows both times with no duplication, and the
second run creates no additional users or teams (the users, teams and all
three kind tables are unchanged). -/
theorem reimport_same_file_idempotent (s : DBState) (today : String)
    (ft : FileType) (rows : List RawRow) (s1 : DBState)
    (h : importRun s today [(ft, rows)] = Except.ok s1) :
    importRun s1 today [(ft, rows)] = Except.ok s1 := by
  unfold importRun importFiles processFile at h
  cases hf : processRows ft today rows (truncateTable ft s) (initCaches s) with
  | error e => rw [hf] at h; cases h
  | ok r =>
    obtain ⟨vs, vc⟩ := r
    rw [hf] at h
    simp only [importFiles, Except.map, Except.ok.injEq] at h
    subst h
    have hg0 : goodCaches (truncateTable ft s) (initCaches s) := by
      unfold goodCaches
      rw [initCaches_truncate]
    obtain ⟨hg1, _, _, ts, hk, hd, hpn, htx, hreplay⟩ :=
      processRows_run2 ft today rows (truncateTable ft s) (initCaches s) vs vc
        hg0 hf
    unfold importRun importFiles processFile
    have hrun2 := hreplay (truncateTable ft vs) (initCaches vs)
      (by rw [← hg1]; exact cacheExtends_refl _)
      (by rw [← hg1]; exact fun i hi => hi)
    rw [hrun2]
    simp only [importFiles, Except.map, Except.ok.injEq]
    cases ft with
    | dues =>
      apply DBState_eq
      · rw [appendTuples_users]; rfl
      · rw [appendTuples_nextUserId]; rfl
      · rw [appendTuples_teams]; rfl
      · rw [appendTuples_dues, hd]; rfl
      · rw [appendTuples_punishments,
          punsOf_eq_nil ts (fun t ht => by
            rw [hk t ht]; exact fun hq => FileType.noConfusion hq)]
        simp [truncateTable]
      · rw [appendTuples_transactions,
          txsOf_eq_nil ts (fun t ht => by
            rw [hk t ht]; exact fun hq => FileType.noConfusion hq)]
        simp [truncateTable]
    | punishments =>
      apply DBState_eq
      · rw [appendTuples_users]; rfl
      · rw [appendTuples_nextUserId]; rfl
      · rw [appendTuples_teams]; rfl
      · rw [appendTuples_dues,
          duesOf_eq_nil ts (fun t ht => by
            rw [hk t ht]; exact fun hq => FileType.noConfusion hq)]
        simp [truncateTable]
      · rw [appendTuples_punishments, hpn]; rfl
      · rw [appendTuples_transactions,
          txsOf_eq_nil ts (fun t ht => by
            rw [hk t ht]; exact fun hq => FileType.noConfusion hq)]
        simp [truncateTable]
    | transactions =>
      apply DBState_eq
      · rw [appendTuples_users]; rfl
      · rw [appendTuples_nextUserId]; rfl
      · rw [appendTuples_teams]; rfl
      · rw [appendTuples_dues,
          duesOf_eq_nil ts (fun t ht => by
            rw [hk t ht]; exact fun hq => FileType.noConfusion hq)]
        simp [truncateTable]
      · rw [appendTuples_punishments,
          punsOf_eq_nil ts (fun t ht => by
            rw [hk t ht]; exact fun hq => FileType.noConfusion hq)]
        simp [truncateTable]
      · rw [appendTuples_transactions, htx]; rfl

theorem reimport_same_file_idempotent_witness :
    importRun c6DB today0 [(FileType.dues, [dueRowGood])] = Except.ok c6DB :=
  reimport_same_file_idempotent emptyDB today0 FileType.dues [dueRowGood] c6DB
    rfl
